import Mathlib

/-!
Shallow embedding of the cubesat telemetry pipeline
(src/emulator.py, src/receiver.py).

Text is modelled as `List Char` (Python `str` is a sequence of characters).
Floating-point numbers never enter the model as such: the wire protocol is
text, so readings carry the exact text of their numeric fields, numeric
values produced by the emulator are carried as exact integers in fixed
decimal units (milliseconds for timestamps, centi-units for sensor values),
and Python's `float()` acceptance test is modelled as a recogniser over the
text.  All definitions are executable.
-/

/-- Python's default whitespace class used by `str.strip()`, restricted to
the Latin-1 range of characters that can occur in this byte-oriented
protocol: HT LF VT FF CR (0x09-0x0D), FS GS RS US (0x1C-0x1F), space,
NEL (0x85) and NBSP (0xA0). -/
def isPySpace (c : Char) : Bool :=
  (9 ≤ c.toNat && c.toNat ≤ 13) || (28 ≤ c.toNat && c.toNat ≤ 31) ||
    c.toNat == 32 || c.toNat == 133 || c.toNat == 160

/-- Python `str.strip()` with no argument: remove whitespace from both ends. -/
def pyStrip (s : List Char) : List Char :=
  ((s.dropWhile isPySpace).reverse.dropWhile isPySpace).reverse

/-- Python `str.split('|')`: split on every occurrence of the delimiter,
keeping empty fields ("a||b" gives ["a", "", "b"], "" gives [""]). -/
def splitOnPipe : List Char → List (List Char)
  | [] => [[]]
  | c :: rest =>
    if c = '|' then [] :: splitOnPipe rest
    else
      match splitOnPipe rest with
      | [] => [[c]]
      | f :: fs => (c :: f) :: fs

/-- Running exclusive-or of the character codes, as in `checksum` of
src/emulator.py lines 25-29 and src/receiver.py lines 21-25:
`result = 0; for char in data: result ^= ord(char)`. -/
def xorFold (data : List Char) : Nat :=
  data.foldl (fun result c => result ^^^ c.toNat) 0

/-- Uppercase hexadecimal digit characters. -/
def hexChars : List Char :=
  ['0', '1', '2', '3', '4', '5', '6', '7', '8', '9', 'A', 'B', 'C', 'D', 'E', 'F']

/-- Uppercase hexadecimal digit for a value below 16. -/
def hexDigitChar (k : Nat) : Char := hexChars.getD k 'F'

/-- Hexadecimal digits of `n`, most significant first (empty for 0);
the fuel argument bounds the recursion and any fuel at least `n` suffices. -/
def hexDigitsAux : Nat → Nat → List Char
  | 0, _ => []
  | fuel + 1, n =>
    if n = 0 then [] else hexDigitsAux fuel (n / 16) ++ [hexDigitChar (n % 16)]

/-- Python `format(n, '02X')`: uppercase hexadecimal, zero-padded on the
left to a width of at least two digits. -/
def toHexMin2 (n : Nat) : List Char :=
  let ds := if n = 0 then ['0'] else hexDigitsAux n n
  if ds.length < 2 then List.replicate (2 - ds.length) '0' ++ ds else ds

/-- The `checksum` function shared by src/emulator.py and src/receiver.py:
`format(xor-of-ords, '02X')`. -/
def checksum (data : List Char) : List Char :=
  toHexMin2 (xorFold data)

/-- Decimal digit characters. -/
def digitChars : List Char :=
  ['0', '1', '2', '3', '4', '5', '6', '7', '8', '9']

/-- Decimal digit character for a value below 10. -/
def digitChar (k : Nat) : Char := digitChars.getD k '9'

/-- Decimal digits of `n`, most significant first (empty for 0); any fuel
at least `n` suffices. -/
def natDigitsAux : Nat → Nat → List Char
  | 0, _ => []
  | fuel + 1, n =>
    if n = 0 then [] else natDigitsAux fuel (n / 10) ++ [digitChar (n % 10)]

/-- Decimal rendering of a natural number, "0" for zero. -/
def natDigits (n : Nat) : List Char :=
  if n = 0 then ['0'] else natDigitsAux n n

/-- Remove trailing '0' characters. -/
def rstripZeros (l : List Char) : List Char :=
  (l.reverse.dropWhile (· = '0')).reverse

/-- Fractional digits of a 3-decimal fraction `fp/1000` (`fp < 1000`) the way
Python's float repr prints them: trailing zeros trimmed, but at least one
digit kept. -/
def frac3 (fp : Nat) : List Char :=
  let t := rstripZeros [digitChar (fp / 100), digitChar (fp / 10 % 10), digitChar (fp % 10)]
  if t = [] then ['0'] else t

/-- Fractional digits of a 2-decimal fraction `fp/100` (`fp < 100`), trailing
zeros trimmed, at least one digit kept. -/
def frac2 (fp : Nat) : List Char :=
  let t := rstripZeros [digitChar (fp / 10), digitChar (fp % 10)]
  if t = [] then ['0'] else t

/-- Modelled rendering of `f"{round(time.time(), 3)}"` from src/emulator.py
line 32: the timestamp is held exactly as `tsMs` milliseconds and printed
the way Python's float repr prints an epoch-scale value rounded to 3
decimals — the shortest decimal, i.e. integer part, a dot, and the
fractional digits with trailing zeros trimmed (a lone "0" when the value is
integral). -/
def renderMilli (tsMs : Nat) : List Char :=
  natDigits (tsMs / 1000) ++ '.' :: frac3 (tsMs % 1000)

/-- Modelled rendering of a sensor value rounded to 2 decimals (the result
of `round(value, 2)`), held exactly as `v` centi-units, printed as Python's
float repr prints such a value: optional minus sign, integer part, dot,
fractional digits with trailing zeros trimmed. -/
def renderCenti (v : Int) : List Char :=
  (if v < 0 then ['-'] else []) ++
    natDigits (v.natAbs / 100) ++ '.' :: frac2 (v.natAbs % 100)

/-- ASCII decimal digit test. -/
def isDigitCh (c : Char) : Bool :=
  48 ≤ c.toNat && c.toNat ≤ 57

/-- Tail of a CPython float `digitpart`: digits with single underscores
allowed between digits only. -/
def digitTail : List Char → Bool
  | [] => true
  | c :: rest =>
    if c = '_' then
      match rest with
      | [] => false
      | d :: rest' => isDigitCh d && digitTail rest'
    else isDigitCh c && digitTail rest

/-- CPython float `digitpart`: a nonempty digit run, underscores allowed
between digits. -/
def digitPart : List Char → Bool
  | [] => false
  | c :: rest => isDigitCh c && digitTail rest

/-- Drop one leading sign character if present. -/
def stripSign (t : List Char) : List Char :=
  match t with
  | [] => []
  | c :: r => if c = '+' ∨ c = '-' then r else c :: r

/-- Case-insensitive match of one character against a lowercase pattern
letter. -/
def ciMatch (c p : Char) : Bool :=
  c == p || c.toNat + 32 == p.toNat

/-- Case-insensitive equality against a lowercase pattern word. -/
def ciEq : List Char → List Char → Bool
  | [], [] => true
  | c :: cs, p :: ps => ciMatch c p && ciEq cs ps
  | _, _ => false

/-- CPython float() special words: inf, infinity, nan (case-insensitive). -/
def infNanOK (u : List Char) : Bool :=
  ciEq u ['i', 'n', 'f'] || ciEq u ['i', 'n', 'f', 'i', 'n', 'i', 't', 'y'] ||
    ciEq u ['n', 'a', 'n']

/-- Split at the first exponent marker 'e'/'E', if any. -/
def splitAtExp : List Char → List Char × Option (List Char)
  | [] => ([], none)
  | c :: rest =>
    if c = 'e' ∨ c = 'E' then ([], some rest)
    else
      let (m, ex) := splitAtExp rest
      (c :: m, ex)

/-- Split at the first dot, if any. -/
def splitAtDot : List Char → List Char × Option (List Char)
  | [] => ([], none)
  | c :: rest =>
    if c = '.' then ([], some rest)
    else
      let (m, fr) := splitAtDot rest
      (c :: m, fr)

/-- CPython float mantissa: digits, or digits-dot-digits where either side
of the dot may be empty but not both. -/
def mantissaOK (m : List Char) : Bool :=
  let (ip, fr) := splitAtDot m
  match fr with
  | none => digitPart ip
  | some f =>
    (ip.isEmpty || digitPart ip) && (f.isEmpty || digitPart f) &&
      !(ip.isEmpty && f.isEmpty)

/-- CPython float exponent: optional sign then a digitpart. -/
def expOK (e : List Char) : Bool :=
  digitPart (stripSign e)

/-- CPython numeric float text (after sign removal): mantissa with optional
exponent. -/
def pyNumericOK (u : List Char) : Bool :=
  let (m, ex) := splitAtExp u
  match ex with
  | none => mantissaOK m
  | some e => mantissaOK m && expOK e

/-- Modelled from the CPython builtin `float(str)` (the only code behind
`float(timestamp)` / `float(value)` in src/receiver.py lines 37-44 that is
not in this repository): surrounding whitespace is stripped, an optional
sign is allowed, and the rest must be a decimal numeral with optional
fraction, exponent and digit-group underscores, or one of inf / infinity /
nan case-insensitively.  True exactly when `float()` succeeds. -/
def isPyFloatText (s : List Char) : Bool :=
  let u := stripSign (pyStrip s)
  infNanOK u || pyNumericOK u

/-- A decoded reading.  The two numeric fields are carried as their exact
field text: `float()` is a function of the text, so text equality is the
faithful wire-level notion of equality for decoded values. -/
structure Reading where
  timestampText : List Char
  sensor_id : List Char
  valueText : List Char
deriving DecidableEq, Repr

/-- Discard reasons of the spec's decode taxonomy.  `validate_packet` in
src/receiver.py has four distinct `return None` sites, one per check, in
this order. -/
inductive DiscardReason where
  | FieldCountMismatch
  | BadHeader
  | ChecksumMismatch
  | NumericParseError
deriving DecidableEq, Repr

/-- The body of `validate_packet` after the strip-and-split step
(src/receiver.py lines 28-44): exactly five fields, header must equal
"SAT", the checksum recomputed over the reconstructed body must equal the
received token exactly, and both numeric fields must parse as floats. -/
def decodeParts : List (List Char) → Except DiscardReason Reading
  | [header, timestamp, sensor_id, value, received_checksum] =>
    if header = ['S', 'A', 'T'] then
      let body := header ++ '|' :: timestamp ++ '|' :: sensor_id ++ '|' :: value
      if checksum body = received_checksum then
        if isPyFloatText timestamp && isPyFloatText value then
          Except.ok ⟨timestamp, sensor_id, value⟩
        else Except.error DiscardReason.NumericParseError
      else Except.error DiscardReason.ChecksumMismatch
    else Except.error DiscardReason.BadHeader
  | _ => Except.error DiscardReason.FieldCountMismatch

/-- `validate_packet` from src/receiver.py lines 27-44:
`packet.strip().split('|')` followed by the field checks.  Each source
`return None` site is tagged with its discard reason. -/
def validate_packet (packet : List Char) : Except DiscardReason Reading :=
  decodeParts (splitOnPipe (pyStrip packet))

/-- Frame body `f"SAT|{timestamp}|{sensor_id}|{value}"` given the already
rendered field texts. -/
def mkBody (ts sid val : List Char) : List Char :=
  ['S', 'A', 'T', '|'] ++ ts ++ '|' :: sid ++ '|' :: val

/-- Frame `f"{body}|{cs}\n"`. -/
def mkFrame (body tok : List Char) : List Char :=
  body ++ '|' :: tok ++ ['\n']

/-- `build_packet` from src/emulator.py lines 31-35, with the ambient
`round(time.time(), 3)` lifted to the rounded-millisecond parameter and the
f-string float renderings modelled by `renderMilli` / `renderCenti`. -/
def build_packet (tsMs : Nat) (sensor_id : List Char) (valueCenti : Int) : List Char :=
  let body := mkBody (renderMilli tsMs) sensor_id (renderCenti valueCenti)
  mkFrame body (checksum body)

/-- The timestamp field (field index 1) of a candidate frame, after decode's
strip-and-split step. -/
def tsFieldOf (frame : List Char) : Option (List Char) :=
  (splitOnPipe (pyStrip frame))[1]?

/-- Number of characters after the last dot of a decimal text. -/
def fracLen (s : List Char) : Nat :=
  (s.reverse.takeWhile (· ≠ '.')).length

/-- Modelled from the spec: decode's first step as the spec words it —
"strip one trailing record separator if present" and nothing else.  Used
only to compare the spec's wording against the source's `str.strip()`. -/
def stripOneSep (s : List Char) : List Char :=
  if s.getLast? = some '\n' then s.dropLast else s

/-- Decode as the spec words its first step: one trailing separator
stripped, all other bytes kept as parts of the fields. -/
def validate_packet_specStrip (packet : List Char) : Except DiscardReason Reading :=
  decodeParts (splitOnPipe (stripOneSep packet))

/-- The configured sensor identifiers (src/emulator.py `SENSORS`). -/
inductive SensorId where
  | TEMP
  | HUMIDITY
  | DISTANCE
deriving DecidableEq, Repr

/-- Wire text of a sensor identifier. -/
def sensorText : SensorId → List Char
  | .TEMP => ['T', 'E', 'M', 'P']
  | .HUMIDITY => ['H', 'U', 'M', 'I', 'D', 'I', 'T', 'Y']
  | .DISTANCE => ['D', 'I', 'S', 'T', 'A', 'N', 'C', 'E']

/-- Per-sensor configuration (src/emulator.py lines 10-14), in exact
rationals. -/
structure SensorParams where
  base : Rat
  noise : Rat
  drift : Rat
deriving DecidableEq

/-- The `SENSORS` table. -/
def SENSORS : SensorId → SensorParams
  | .TEMP => ⟨22, 1 / 2, 1 / 100⟩
  | .HUMIDITY => ⟨45, 1, 1 / 50⟩
  | .DISTANCE => ⟨100, 2, 1 / 20⟩

/-- `sensor_state = {k: v['base'] for k, v in SENSORS.items()}`
(src/emulator.py line 16), as an explicit mapping threaded through the
emulator operations. -/
def initial_sensor_state : SensorId → Rat :=
  fun k => (SENSORS k).base

/-- Round-half-to-even of a rational to an integer, as Python's `round`
rounds. -/
def roundHalfEven (q : Rat) : Int :=
  let f := q.floor
  let r := q - f
  if r < 1 / 2 then f
  else if 1 / 2 < r then f + 1
  else if f % 2 = 0 then f else f + 1

/-- `round(x, 2)` of src/emulator.py, returned in exact centi-units. -/
def round2c (x : Rat) : Int :=
  roundHalfEven (x * 100)

/-- The random draws consumed by one `simulate_sensor` call:
`random.choice([-1, 1])` and `random.uniform(-noise, noise)`. -/
structure SensorRand where
  signPos : Bool
  noiseDraw : Rat

/-- `simulate_sensor` from src/emulator.py lines 18-23: advance the stored
state by a signed drift step, then return the state plus noise, rounded to
2 decimals (centi-units). -/
def simulate_sensor (st : SensorId → Rat) (sid : SensorId) (r : SensorRand) :
    (SensorId → Rat) × Int :=
  let params := SENSORS sid
  let st' := fun k =>
    if k = sid then st sid + params.drift * (if r.signPos then 1 else -1) else st k
  let value := st' sid + r.noiseDraw
  (st', round2c value)

/-- The `spike_ranges` table of `inject_fault` (src/emulator.py lines
44-48): per sensor, a uniform draw from the low-outlier or the high-outlier
range, chosen by `random.choice`. -/
def spike_ranges (uniform : Rat → Rat → Rat) (lowRange : Bool) : SensorId → Rat
  | .TEMP => if lowRange then uniform (-20) 10 else uniform 40 80
  | .HUMIDITY => if lowRange then uniform (-10) 10 else uniform 90 120
  | .DISTANCE => if lowRange then uniform 0 30 else uniform 220 400

/-- The random draws and ambient time consumed by one `inject_fault` call:
`random.random()`, `random.choice(list(SENSORS.keys()))`, the
`random.choice` between the two range lambdas, `random.uniform` as a
deterministic oracle, and `round(time.time(), 3)` in milliseconds. -/
structure FaultRand where
  r1 : Rat
  sChoice : SensorId
  lowRange : Bool
  uniform : Rat → Rat → Rat
  tsMs : Nat

/-- The literal corrupt-fault frame. -/
def corruptFrame : List Char :=
  "SAT|CORRUPTED|###\n".toList

/-- `inject_fault` from src/emulator.py lines 37-55, with the per-sensor
state mapping threaded explicitly: with probability 0.3 the literal corrupt
frame, otherwise a checksummed spike frame for the given (or randomly
chosen) sensor.  The spike body is built exactly as `build_packet` builds
its frame (the source duplicates those lines inline). -/
def inject_fault (sensor_id : Option SensorId) (st : SensorId → Rat)
    (r : FaultRand) : List Char × (SensorId → Rat) :=
  if r.r1 < 3 / 10 then (corruptFrame, st)
  else
    let s_id := sensor_id.getD r.sChoice
    let spike_value := round2c (spike_ranges r.uniform r.lowRange s_id)
    (build_packet r.tsMs (sensorText s_id) spike_value, st)

/-- One pass of the receiver's inner reassembly loop (src/receiver.py lines
70-72): `while '\n' in buffer: line, buffer = buffer.split('\n', 1)` —
every separator-terminated run is emitted in order and the unterminated
remainder is kept. -/
def scanLines : List Char → List (List Char) × List Char
  | [] => ([], [])
  | c :: rest =>
    if c = '\n' then
      let (ls, b) := scanLines rest
      ([] :: ls, b)
    else
      match scanLines rest with
      | ([], b) => ([], c :: b)
      | (l :: ls, b) => ((c :: l) :: ls, b)

/-- Feed one received chunk to the reassembly buffer (src/receiver.py line
69 `buffer += data` followed by the inner loop): returns the candidate runs
emitted by this call and the new buffer. -/
def feed (buffer chunk : List Char) : List (List Char) × List Char :=
  scanLines (buffer ++ chunk)

/-- Feed a sequence of chunks, concatenating the emitted candidate runs in
order. -/
def feedList : List Char → List (List Char) → List (List Char) × List Char
  | b, [] => ([], b)
  | b, chunk :: rest =>
    let (ls, b') := feed b chunk
    let (ls', b'') := feedList b' rest
    (ls ++ ls', b'')

/-- The receiver's per-line dispatch (src/receiver.py lines 71-77): a valid
packet is inserted into the datastore (modelled as the ordered list of
stored readings), a discarded line leaves it unchanged. -/
def processLine (db : List Reading) (line : List Char) : List Reading :=
  match validate_packet line with
  | Except.ok r => db ++ [r]
  | Except.error _ => db

/-- The receiver's handling of one received chunk: reassemble, then decode
and dispatch each candidate run in order. -/
def handleChunk (buffer : List Char) (db : List Reading) (data : List Char) :
    List Char × List Reading :=
  let (ls, b') := feed buffer data
  (b', ls.foldl processLine db)

deriving instance DecidableEq for Except

lemma dropWhile_all_false {p : Char → Bool} :
    ∀ l : List Char, (∀ c ∈ l, p c = false) → l.dropWhile p = l
  | [], _ => rfl
  | c :: t, h => by
    have hc := h c (List.mem_cons_self c t)
    simp [List.dropWhile_cons, hc]

lemma pyStrip_all {l : List Char} (h : ∀ c ∈ l, isPySpace c = false) :
    pyStrip l = l := by
  unfold pyStrip
  rw [dropWhile_all_false l h,
    dropWhile_all_false l.reverse (fun c hc => h c (List.mem_reverse.mp hc)),
    List.reverse_reverse]

lemma pyStrip_sandwich (c₀ e : Char) (mid : List Char)
    (h₀ : isPySpace c₀ = false) (he : isPySpace e = false) :
    pyStrip (c₀ :: mid ++ [e, '\n']) = c₀ :: mid ++ [e] := by
  have hnl : isPySpace '\n' = true := by decide
  unfold pyStrip
  simp [List.dropWhile_cons, h₀, List.reverse_append, hnl, he]

lemma sp_append_pipe : ∀ (a l : List Char), '|' ∉ a →
    splitOnPipe (a ++ '|' :: l) = a :: splitOnPipe l
  | [], l, _ => by simp [splitOnPipe]
  | c :: t, l, ha => by
    have hc : ¬c = '|' := fun h => ha (h ▸ List.mem_cons_self c t)
    have ht : '|' ∉ t := fun h => ha (List.mem_cons_of_mem c h)
    show splitOnPipe (c :: (t ++ '|' :: l)) = (c :: t) :: splitOnPipe l
    simp only [splitOnPipe, if_neg hc]
    rw [sp_append_pipe t l ht]

lemma sp_noPipe : ∀ a : List Char, '|' ∉ a → splitOnPipe a = [a]
  | [], _ => rfl
  | c :: t, ha => by
    have hc : ¬c = '|' := fun h => ha (h ▸ List.mem_cons_self c t)
    have ht : '|' ∉ t := fun h => ha (List.mem_cons_of_mem c h)
    simp only [splitOnPipe, if_neg hc, sp_noPipe t ht]

lemma xorFold_from (l : List Char) :
    ∀ init : Nat, l.foldl (fun result c => result ^^^ c.toNat) init = init ^^^ xorFold l := by
  induction l with
  | nil => intro init; simp [xorFold]
  | cons c t ih =>
    intro init
    have h0 : xorFold (c :: t) = c.toNat ^^^ xorFold t := by
      show List.foldl _ (0 ^^^ c.toNat) t = _
      rw [ih (0 ^^^ c.toNat), Nat.zero_xor]
    show List.foldl _ (init ^^^ c.toNat) t = _
    rw [ih (init ^^^ c.toNat), h0, Nat.xor_assoc]

lemma xorFold_append (a b : List Char) :
    xorFold (a ++ b) = xorFold a ^^^ xorFold b := by
  unfold xorFold
  rw [List.foldl_append, xorFold_from b (List.foldl _ 0 a)]
  rfl

lemma xorFold_cons (c : Char) (l : List Char) :
    xorFold (c :: l) = c.toNat ^^^ xorFold l := by
  show List.foldl _ (0 ^^^ c.toNat) l = _
  rw [xorFold_from l (0 ^^^ c.toNat), Nat.zero_xor]

lemma xorFold_lt_two_pow {k : Nat} {l : List Char}
    (h : ∀ c ∈ l, c.toNat < 2 ^ k) : xorFold l < 2 ^ k := by
  induction l with
  | nil => exact Nat.pos_pow_of_pos k (by decide)
  | cons c t ih =>
    rw [xorFold_cons]
    exact Nat.xor_lt_two_pow (h c (List.mem_cons_self c t))
      (ih fun x hx => h x (List.mem_cons_of_mem c hx))

lemma hexDigitsAux_zero : ∀ fuel, hexDigitsAux fuel 0 = []
  | 0 => rfl
  | _ + 1 => by simp [hexDigitsAux]

lemma hexDigitChar_mem (k : Nat) : hexDigitChar k ∈ hexChars := by
  rcases Nat.lt_or_ge k 16 with h | h
  · interval_cases k <;> decide
  · have hnone : hexChars[k]? = none := by
      apply List.getElem?_eq_none
      simp only [hexChars, List.length_cons, List.length_nil]
      omega
    unfold hexDigitChar
    rw [List.getD_eq_getElem?_getD, hnone]
    decide

lemma hexChars_facts :
    ∀ c ∈ hexChars, isPySpace c = false ∧ c ≠ '|' ∧ c ≠ '\n' ∧ c.toNat < 128 := by
  decide

lemma hexDigitsAux_chars :
    ∀ fuel n, ∀ c ∈ hexDigitsAux fuel n, c ∈ hexChars
  | 0, _ => by simp [hexDigitsAux]
  | fuel + 1, n => by
    intro c hc
    by_cases hn : n = 0
    · simp [hexDigitsAux, hn] at hc
    · simp only [hexDigitsAux, if_neg hn, List.mem_append, List.mem_singleton] at hc
      rcases hc with hc | hc
      · exact hexDigitsAux_chars fuel (n / 16) c hc
      · exact hc ▸ hexDigitChar_mem (n % 16)

lemma toHexMin2_chars (n : Nat) : ∀ c ∈ toHexMin2 n, c ∈ hexChars := by
  intro c hc
  unfold toHexMin2 at hc
  by_cases hn : n = 0
  · simp [hn] at hc
    subst hc; decide
  · simp only [if_neg hn] at hc
    by_cases hl : (hexDigitsAux n n).length < 2
    · simp only [if_pos hl, List.mem_append] at hc
      rcases hc with hc | hc
      · have := List.eq_of_mem_replicate hc
        subst this; decide
      · exact hexDigitsAux_chars n n c hc
    · simp only [if_neg hl] at hc
      exact hexDigitsAux_chars n n c hc

lemma toHexMin2_ne_nil (n : Nat) : toHexMin2 n ≠ [] := by
  unfold toHexMin2
  by_cases hn : n = 0
  · simp [hn]
  · simp only [if_neg hn]
    by_cases hl : (hexDigitsAux n n).length < 2
    · simp only [if_pos hl]
      intro h
      have := congrArg List.length h
      simp at this
      omega
    · simp only [if_neg hl]
      intro h
      rw [h] at hl
      simp at hl

lemma toHexMin2_split (n : Nat) :
    ∃ t' e, toHexMin2 n = t' ++ [e] ∧ isPySpace e = false := by
  obtain ⟨t', e, h⟩ : ∃ t' e, toHexMin2 n = t' ++ [e] := by
    refine ⟨(toHexMin2 n).dropLast, (toHexMin2 n).getLast (toHexMin2_ne_nil n), ?_⟩
    exact (List.dropLast_append_getLast (toHexMin2_ne_nil n)).symm
  refine ⟨t', e, h, ?_⟩
  have he : e ∈ toHexMin2 n := by rw [h]; simp
  exact (hexChars_facts e (toHexMin2_chars n e he)).1

lemma checksum_noPipe (data : List Char) : '|' ∉ checksum data := by
  intro h
  exact (hexChars_facts '|' (toHexMin2_chars _ '|' h)).2.1 rfl

lemma hexDigitsAux_small {fuel n : Nat} (hn : 1 ≤ n) (h16 : n < 16) (hf : 1 ≤ fuel) :
    hexDigitsAux fuel n = [hexDigitChar n] := by
  obtain ⟨f, rfl⟩ : ∃ f, fuel = f + 1 := ⟨fuel - 1, by omega⟩
  have hn0 : ¬n = 0 := by omega
  simp only [hexDigitsAux, if_neg hn0]
  rw [Nat.div_eq_of_lt h16, hexDigitsAux_zero, Nat.mod_eq_of_lt h16]
  rfl

lemma hexDigitsAux_mid {fuel n : Nat} (h16 : 16 ≤ n) (h256 : n < 256) (hf : 2 ≤ fuel) :
    hexDigitsAux fuel n = [hexDigitChar (n / 16), hexDigitChar (n % 16)] := by
  obtain ⟨f, rfl⟩ : ∃ f, fuel = f + 1 := ⟨fuel - 1, by omega⟩
  have hn0 : ¬n = 0 := by omega
  simp only [hexDigitsAux, if_neg hn0]
  rw [hexDigitsAux_small (by omega) (by omega) (by omega)]
  rfl

lemma toHexMin2_lt256 {n : Nat} (h : n < 256) :
    toHexMin2 n = [hexDigitChar (n / 16), hexDigitChar (n % 16)] := by
  rcases Nat.lt_or_ge n 16 with h16 | h16
  · rcases Nat.eq_zero_or_pos n with rfl | hn
    · decide
    · unfold toHexMin2
      have hn0 : ¬n = 0 := by omega
      simp only [if_neg hn0]
      rw [hexDigitsAux_small hn h16 (by omega), Nat.div_eq_of_lt h16,
        Nat.mod_eq_of_lt h16, show hexDigitChar 0 = '0' from by decide]
      simp [List.replicate]
  · unfold toHexMin2
    have hn0 : ¬n = 0 := by omega
    simp only [if_neg hn0]
    rw [hexDigitsAux_mid h16 h (by omega)]
    rfl

lemma hexDigitChar_inj :
    ∀ a < 16, ∀ b < 16, hexDigitChar a = hexDigitChar b → a = b := by decide

lemma toHexMin2_inj {a b : Nat} (ha : a < 256) (hb : b < 256)
    (h : toHexMin2 a = toHexMin2 b) : a = b := by
  rw [toHexMin2_lt256 ha, toHexMin2_lt256 hb] at h
  have h12 : hexDigitChar (a / 16) = hexDigitChar (b / 16) ∧
      hexDigitChar (a % 16) = hexDigitChar (b % 16) := by
    simpa using h
  have e1 := hexDigitChar_inj (a / 16) (by omega) (b / 16) (by omega) h12.1
  have e2 := hexDigitChar_inj (a % 16) (by omega) (b % 16) (by omega) h12.2
  omega

lemma digitChar_mem (k : Nat) : digitChar k ∈ digitChars := by
  rcases Nat.lt_or_ge k 10 with h | h
  · interval_cases k <;> decide
  · have hnone : digitChars[k]? = none := by
      apply List.getElem?_eq_none
      simp only [digitChars, List.length_cons, List.length_nil]
      omega
    unfold digitChar
    rw [List.getD_eq_getElem?_getD, hnone]
    decide

lemma digitChars_digit : ∀ c ∈ digitChars, isDigitCh c = true := by decide

lemma isDigitCh_bounds {c : Char} (h : isDigitCh c = true) :
    48 ≤ c.toNat ∧ c.toNat ≤ 57 := by
  simpa [isDigitCh] using h

lemma digit_not_space {c : Char} (h : isDigitCh c = true) : isPySpace c = false := by
  have hb := isDigitCh_bounds h
  simp only [isPySpace, Bool.or_eq_false_iff]
  refine ⟨⟨⟨?_, ?_⟩, ?_⟩, ?_⟩ <;> simp <;> omega

lemma digit_ne {c : Char} (h : isDigitCh c = true) :
    c ≠ '|' ∧ c ≠ '.' ∧ c ≠ 'e' ∧ c ≠ 'E' ∧ c ≠ '_' ∧ c ≠ '+' ∧ c ≠ '-' ∧
      c ≠ '\n' ∧ c.toNat < 128 := by
  have hb := isDigitCh_bounds h
  refine ⟨?_, ?_, ?_, ?_, ?_, ?_, ?_, ?_, by omega⟩ <;>
    · intro hc
      subst hc
      exact absurd hb (by decide)

lemma natDigitsAux_digits : ∀ fuel n, ∀ c ∈ natDigitsAux fuel n, isDigitCh c = true
  | 0, _ => by simp [natDigitsAux]
  | fuel + 1, n => by
    intro c hc
    by_cases hn : n = 0
    · simp [natDigitsAux, hn] at hc
    · simp only [natDigitsAux, if_neg hn, List.mem_append, List.mem_singleton] at hc
      rcases hc with hc | hc
      · exact natDigitsAux_digits fuel (n / 10) c hc
      · exact hc ▸ digitChars_digit _ (digitChar_mem (n % 10))

lemma natDigits_digits (n : Nat) : ∀ c ∈ natDigits n, isDigitCh c = true := by
  intro c hc
  unfold natDigits at hc
  by_cases hn : n = 0
  · simp [hn] at hc
    subst hc; decide
  · simp only [if_neg hn] at hc
    exact natDigitsAux_digits n n c hc

lemma natDigits_ne_nil (n : Nat) : natDigits n ≠ [] := by
  unfold natDigits
  by_cases hn : n = 0
  · simp [hn]
  · simp only [if_neg hn]
    obtain ⟨f, hf⟩ : ∃ f, n = f + 1 := ⟨n - 1, by omega⟩
    rw [hf]
    simp [natDigitsAux, hf ▸ hn]

lemma rstripZeros_subset {l : List Char} : ∀ c ∈ rstripZeros l, c ∈ l := by
  intro c hc
  unfold rstripZeros at hc
  rw [List.mem_reverse] at hc
  exact List.mem_reverse.mp ((List.dropWhile_sublist _).subset hc)

lemma rstripZeros_len {l : List Char} : (rstripZeros l).length ≤ l.length := by
  unfold rstripZeros
  rw [List.length_reverse]
  calc (l.reverse.dropWhile (· = '0')).length ≤ l.reverse.length :=
        (List.dropWhile_sublist _).length_le
    _ = l.length := List.length_reverse l

lemma frac3_digits (fp : Nat) : ∀ c ∈ frac3 fp, isDigitCh c = true := by
  intro c hc
  simp only [frac3] at hc
  split at hc
  · simp at hc
    subst hc; decide
  · have := rstripZeros_subset c hc
    simp only [List.mem_cons, List.not_mem_nil, or_false] at this
    rcases this with rfl | rfl | rfl <;>
      exact digitChars_digit _ (digitChar_mem _)

lemma frac3_ne_nil (fp : Nat) : frac3 fp ≠ [] := by
  simp only [frac3]
  split
  · simp
  · assumption

lemma frac3_len (fp : Nat) : (frac3 fp).length ≤ 3 := by
  simp only [frac3]
  split
  · decide
  · refine le_trans rstripZeros_len ?_
    simp

lemma frac2_digits (fp : Nat) : ∀ c ∈ frac2 fp, isDigitCh c = true := by
  intro c hc
  simp only [frac2] at hc
  split at hc
  · simp at hc
    subst hc; decide
  · have := rstripZeros_subset c hc
    simp only [List.mem_cons, List.not_mem_nil, or_false] at this
    rcases this with rfl | rfl <;>
      exact digitChars_digit _ (digitChar_mem _)

lemma frac2_ne_nil (fp : Nat) : frac2 fp ≠ [] := by
  simp only [frac2]
  split
  · simp
  · assumption

lemma renderMilli_chars (n : Nat) :
    ∀ c ∈ renderMilli n, isDigitCh c = true ∨ c = '.' := by
  intro c hc
  unfold renderMilli at hc
  rcases List.mem_append.mp hc with h | h
  · exact Or.inl (natDigits_digits _ c h)
  · rcases List.mem_cons.mp h with rfl | h
    · exact Or.inr rfl
    · exact Or.inl (frac3_digits _ c h)

lemma renderCenti_chars (v : Int) :
    ∀ c ∈ renderCenti v, isDigitCh c = true ∨ c = '.' ∨ c = '-' := by
  intro c hc
  unfold renderCenti at hc
  rcases List.mem_append.mp hc with h | h
  · rcases List.mem_append.mp h with h | h
    · split at h
      · simp at h
        subst h
        exact Or.inr (Or.inr rfl)
      · simp at h
    · exact Or.inl (natDigits_digits _ c h)
  · rcases List.mem_cons.mp h with rfl | h
    · exact Or.inr (Or.inl rfl)
    · exact Or.inl (frac2_digits _ c h)

lemma numCh_facts {c : Char} (h : isDigitCh c = true ∨ c = '.' ∨ c = '-') :
    isPySpace c = false ∧ c ≠ '|' ∧ c ≠ 'e' ∧ c ≠ 'E' ∧ c ≠ '\n' ∧ c.toNat < 128 := by
  rcases h with h | rfl | rfl
  · have := digit_ne h
    exact ⟨digit_not_space h, this.1, this.2.2.1, this.2.2.2.1, this.2.2.2.2.2.2.2.1,
      this.2.2.2.2.2.2.2.2⟩
  · refine ⟨by decide, by decide, by decide, by decide, by decide, by decide⟩
  · refine ⟨by decide, by decide, by decide, by decide, by decide, by decide⟩

lemma renderMilli_noPipe (n : Nat) : '|' ∉ renderMilli n := by
  intro h
  exact (numCh_facts ((renderMilli_chars n '|' h).imp id Or.inl)).2.1 rfl

lemma renderCenti_noPipe (v : Int) : '|' ∉ renderCenti v := by
  intro h
  exact (numCh_facts ((renderCenti_chars v '|' h).imp id id)).2.1 rfl

lemma renderMilli_nospace (n : Nat) : ∀ c ∈ renderMilli n, isPySpace c = false :=
  fun c hc => (numCh_facts ((renderMilli_chars n c hc).imp id Or.inl)).1

lemma renderCenti_nospace (v : Int) : ∀ c ∈ renderCenti v, isPySpace c = false :=
  fun c hc => (numCh_facts ((renderCenti_chars v c hc).imp id id)).1

lemma renderMilli_ascii (n : Nat) : ∀ c ∈ renderMilli n, c.toNat < 128 :=
  fun c hc => (numCh_facts ((renderMilli_chars n c hc).imp id Or.inl)).2.2.2.2.2

lemma renderCenti_ascii (v : Int) : ∀ c ∈ renderCenti v, c.toNat < 128 :=
  fun c hc => (numCh_facts ((renderCenti_chars v c hc).imp id id)).2.2.2.2.2

lemma splitAtExp_none {l : List Char} (h : ∀ c ∈ l, c ≠ 'e' ∧ c ≠ 'E') :
    splitAtExp l = (l, none) := by
  induction l with
  | nil => rfl
  | cons c t ih =>
    have hc := h c (List.mem_cons_self c t)
    have hcond : ¬(c = 'e' ∨ c = 'E') := by
      rintro (rfl | rfl)
      · exact hc.1 rfl
      · exact hc.2 rfl
    simp only [splitAtExp, if_neg hcond,
      ih fun x hx => h x (List.mem_cons_of_mem c hx)]

lemma splitAtDot_append {a : List Char} (l : List Char) (ha : ∀ c ∈ a, c ≠ '.') :
    splitAtDot (a ++ '.' :: l) = (a, some l) := by
  induction a with
  | nil => simp [splitAtDot]
  | cons c t ih =>
    have hc : ¬c = '.' := ha c (List.mem_cons_self c t)
    show splitAtDot (c :: (t ++ '.' :: l)) = (c :: t, some l)
    simp only [splitAtDot, if_neg hc]
    rw [ih fun x hx => ha x (List.mem_cons_of_mem c hx)]

lemma digitTail_cons_ne {c : Char} (t : List Char) (h : ¬c = '_') :
    digitTail (c :: t) = (isDigitCh c && digitTail t) := by
  rw [digitTail.eq_def]
  simp [h]

lemma digitTail_all {l : List Char} (h : ∀ c ∈ l, isDigitCh c = true) :
    digitTail l = true := by
  induction l with
  | nil => rfl
  | cons c t ih =>
    have hc := h c (List.mem_cons_self c t)
    have ht := ih fun x hx => h x (List.mem_cons_of_mem c hx)
    rw [digitTail_cons_ne t (digit_ne hc).2.2.2.2.1, hc, ht]
    rfl

lemma digitPart_all {l : List Char} (hne : l ≠ [])
    (h : ∀ c ∈ l, isDigitCh c = true) : digitPart l = true := by
  cases l with
  | nil => exact absurd rfl hne
  | cons c t =>
    simp only [digitPart, h c (List.mem_cons_self c t),
      digitTail_all fun x hx => h x (List.mem_cons_of_mem c hx), Bool.and_self]

lemma infNanOK_digit {d : Char} (hd : isDigitCh d = true) (rest : List Char) :
    infNanOK (d :: rest) = false := by
  have hb := isDigitCh_bounds hd
  have h1 : ciMatch d 'i' = false := by
    simp only [ciMatch, Bool.or_eq_false_iff, beq_eq_false_iff_ne]
    constructor
    · intro hc
      subst hc
      exact absurd hb (by decide)
    · show d.toNat + 32 ≠ 105
      omega
  have h2 : ciMatch d 'n' = false := by
    simp only [ciMatch, Bool.or_eq_false_iff, beq_eq_false_iff_ne]
    constructor
    · intro hc
      subst hc
      exact absurd hb (by decide)
    · show d.toNat + 32 ≠ 110
      omega
  simp [infNanOK, ciEq, h1, h2]

lemma isPyFloatText_core {ip fp : List Char}
    (hip : ip ≠ []) (hipd : ∀ c ∈ ip, isDigitCh c = true)
    (hfp : fp ≠ []) (hfpd : ∀ c ∈ fp, isDigitCh c = true) :
    infNanOK (ip ++ '.' :: fp) = false ∧ pyNumericOK (ip ++ '.' :: fp) = true := by
  obtain ⟨d, ip', rfl⟩ : ∃ d ip', ip = d :: ip' := by
    cases ip with
    | nil => exact absurd rfl hip
    | cons d t => exact ⟨d, t, rfl⟩
  have hd := hipd d (List.mem_cons_self d ip')
  constructor
  · exact infNanOK_digit hd _
  · have hexp : splitAtExp ((d :: ip') ++ '.' :: fp) = ((d :: ip') ++ '.' :: fp, none) := by
      apply splitAtExp_none
      intro c hc
      rcases List.mem_append.mp hc with h | h
      · have := digit_ne (hipd c h)
        exact ⟨this.2.2.1, this.2.2.2.1⟩
      · rcases List.mem_cons.mp h with rfl | h
        · exact ⟨by decide, by decide⟩
        · have := digit_ne (hfpd c h)
          exact ⟨this.2.2.1, this.2.2.2.1⟩
    have hdot : splitAtDot ((d :: ip') ++ '.' :: fp) = (d :: ip', some fp) :=
      splitAtDot_append fp fun c hc => (digit_ne (hipd c hc)).2.1
    simp only [pyNumericOK, hexp, mantissaOK, hdot, digitPart_all hip hipd,
      digitPart_all hfp hfpd, Bool.or_true, Bool.and_true, List.isEmpty_cons,
      Bool.false_and, Bool.true_and, Bool.not_false, Bool.and_self]

lemma stripSign_minus (r : List Char) : stripSign ('-' :: r) = r := by
  show (if ('-' : Char) = '+' ∨ ('-' : Char) = '-' then r else '-' :: r) = r
  rw [if_pos (Or.inr rfl)]

lemma stripSign_nosign {c : Char} (r : List Char) (h : ¬(c = '+' ∨ c = '-')) :
    stripSign (c :: r) = c :: r := by
  show (if c = '+' ∨ c = '-' then r else c :: r) = c :: r
  rw [if_neg h]

lemma isPyFloatText_renderMilli (n : Nat) : isPyFloatText (renderMilli n) = true := by
  have hcore := isPyFloatText_core (natDigits_ne_nil (n / 1000)) (natDigits_digits _)
    (frac3_ne_nil (n % 1000)) (frac3_digits _)
  obtain ⟨d, ip', hip⟩ : ∃ d ip', natDigits (n / 1000) = d :: ip' := by
    cases h : natDigits (n / 1000) with
    | nil => exact absurd h (natDigits_ne_nil _)
    | cons d t => exact ⟨d, t, rfl⟩
  have hd : isDigitCh d = true := natDigits_digits _ d (hip ▸ List.mem_cons_self d ip')
  have hsign : ¬(d = '+' ∨ d = '-') := by
    rintro (rfl | rfl)
    · exact absurd hd (by decide)
    · exact absurd hd (by decide)
  have h1 := hcore.1
  have h2 := hcore.2
  rw [hip] at h1 h2
  simp only [List.cons_append] at h1 h2
  unfold isPyFloatText
  rw [pyStrip_all (renderMilli_nospace n)]
  unfold renderMilli
  rw [hip]
  simp only [List.cons_append, stripSign_nosign _ hsign, h1, h2, Bool.false_or]

lemma dropWhile_append_all {p : Char → Bool} :
    ∀ (a l : List Char), (∀ c ∈ a, p c = true) → (a ++ l).dropWhile p = l.dropWhile p
  | [], _, _ => rfl
  | c :: t, l, h => by
    simp [List.dropWhile_cons, h c (List.mem_cons_self c t),
      dropWhile_append_all t l fun x hx => h x (List.mem_cons_of_mem c hx)]

lemma dropWhile_head_false {p : Char → Bool} :
    ∀ (l : List Char) (c : Char) (rest : List Char),
      l.dropWhile p = c :: rest → p c = false
  | [], c, rest, h => by simp at h
  | a :: t, c, rest, h => by
    by_cases hp : p a
    · rw [List.dropWhile_cons, if_pos hp] at h
      exact dropWhile_head_false t c rest h
    · rw [List.dropWhile_cons, if_neg hp] at h
      cases h
      exact Bool.eq_false_iff.mpr hp

lemma dropWhile_append_left {p : Char → Bool} :
    ∀ (run ws : List Char) (c : Char) (rest : List Char),
      run.dropWhile p = c :: rest → (run ++ ws).dropWhile p = (c :: rest) ++ ws
  | [], ws, c, rest, h => by simp at h
  | a :: t, ws, c, rest, h => by
    by_cases hp : p a
    · rw [List.dropWhile_cons, if_pos hp] at h
      rw [List.cons_append, List.dropWhile_cons, if_pos hp]
      exact dropWhile_append_left t ws c rest h
    · rw [List.dropWhile_cons, if_neg hp] at h
      cases h
      rw [List.cons_append, List.dropWhile_cons, if_neg hp]

lemma pyStrip_pad (ws1 ws2 run : List Char)
    (h1 : ∀ c ∈ ws1, isPySpace c = true) (h2 : ∀ c ∈ ws2, isPySpace c = true) :
    pyStrip (ws1 ++ run ++ ws2) = pyStrip run := by
  unfold pyStrip
  rw [List.append_assoc, dropWhile_append_all ws1 (run ++ ws2) h1]
  rcases h : run.dropWhile isPySpace with _ | ⟨c, rest⟩
  · have hall : ∀ c ∈ run, isPySpace c = true := by
      intro c hc
      exact (List.dropWhile_eq_nil_iff.mp h) c hc
    rw [dropWhile_append_all run ws2 hall, List.dropWhile_eq_nil_iff.mpr h2]
  · rw [dropWhile_append_left run ws2 c rest h, List.reverse_append,
      dropWhile_append_all ws2.reverse _ fun x hx => h2 x (List.mem_reverse.mp hx)]

lemma validate_frameEq (c₀ : Char) (B' : List Char) (t' : List Char) (e : Char)
    (h₀ : isPySpace c₀ = false) (he : isPySpace e = false) :
    validate_packet (mkFrame (c₀ :: B') (t' ++ [e])) =
      decodeParts (splitOnPipe ((c₀ :: B') ++ '|' :: (t' ++ [e]))) := by
  have hshape : mkFrame (c₀ :: B') (t' ++ [e]) =
      c₀ :: (B' ++ '|' :: t') ++ [e, '\n'] := by
    simp [mkFrame]
  unfold validate_packet
  rw [hshape, pyStrip_sandwich c₀ e _ h₀ he]
  congr 1
  simp

lemma decodeParts_five (h t s v r : List Char) :
    decodeParts [h, t, s, v, r] =
      if h = ['S', 'A', 'T'] then
        (if checksum (h ++ '|' :: t ++ '|' :: s ++ '|' :: v) = r then
          (if isPyFloatText t && isPyFloatText v then Except.ok ⟨t, s, v⟩
          else Except.error DiscardReason.NumericParseError)
        else Except.error DiscardReason.ChecksumMismatch)
      else Except.error DiscardReason.BadHeader := rfl

lemma decodeParts_four (a b c d : List Char) :
    decodeParts [a, b, c, d] = Except.error DiscardReason.FieldCountMismatch := rfl

lemma decodeParts_six (a b c d e f : List Char) :
    decodeParts [a, b, c, d, e, f] = Except.error DiscardReason.FieldCountMismatch := rfl

lemma validate_fields (ts sid val tok : List Char)
    (hts : '|' ∉ ts) (hsid : '|' ∉ sid) (hval : '|' ∉ val) (htokp : '|' ∉ tok)
    (t' : List Char) (e : Char) (htok : tok = t' ++ [e]) (he : isPySpace e = false) :
    validate_packet (mkFrame (mkBody ts sid val) tok) =
      if checksum (mkBody ts sid val) = tok then
        (if isPyFloatText ts && isPyFloatText val then
          Except.ok ⟨ts, sid, val⟩
        else Except.error DiscardReason.NumericParseError)
      else Except.error DiscardReason.ChecksumMismatch := by
  subst htok
  have hbody : mkBody ts sid val =
      'S' :: (['A', 'T', '|'] ++ ts ++ '|' :: sid ++ '|' :: val) := by
    simp [mkBody]
  rw [hbody, validate_frameEq 'S' _ t' e (by decide) he]
  have h1 : ('S' :: (['A', 'T', '|'] ++ ts ++ '|' :: sid ++ '|' :: val)) ++
        '|' :: (t' ++ [e]) =
      ['S', 'A', 'T'] ++ '|' ::
        (ts ++ '|' :: (sid ++ '|' :: (val ++ '|' :: (t' ++ [e])))) := by
    simp
  rw [h1, sp_append_pipe _ _ (by decide), sp_append_pipe _ _ hts,
    sp_append_pipe _ _ hsid, sp_append_pipe _ _ hval, sp_noPipe _ htokp,
    decodeParts_five, if_pos rfl]
  have h2 : ['S', 'A', 'T'] ++ '|' :: ts ++ '|' :: sid ++ '|' :: val =
      mkBody ts sid val := by
    simp [mkBody]
  rw [h2, hbody]

lemma isPyFloatText_renderCenti (v : Int) : isPyFloatText (renderCenti v) = true := by
  have hcore := isPyFloatText_core (natDigits_ne_nil (v.natAbs / 100)) (natDigits_digits _)
    (frac2_ne_nil (v.natAbs % 100)) (frac2_digits _)
  obtain ⟨d, ip', hip⟩ : ∃ d ip', natDigits (v.natAbs / 100) = d :: ip' := by
    cases h : natDigits (v.natAbs / 100) with
    | nil => exact absurd h (natDigits_ne_nil _)
    | cons d t => exact ⟨d, t, rfl⟩
  have hd : isDigitCh d = true := natDigits_digits _ d (hip ▸ List.mem_cons_self d ip')
  have hsign : ¬(d = '+' ∨ d = '-') := by
    rintro (rfl | rfl)
    · exact absurd hd (by decide)
    · exact absurd hd (by decide)
  have h1 := hcore.1
  have h2 := hcore.2
  rw [hip] at h1 h2
  simp only [List.cons_append] at h1 h2
  unfold isPyFloatText
  rw [pyStrip_all (renderCenti_nospace v)]
  unfold renderCenti
  by_cases hv : v < 0
  · rw [if_pos hv, hip]
    simp only [List.cons_append, List.nil_append, stripSign_minus, h1, h2, Bool.false_or]
  · rw [if_neg hv, hip]
    simp only [List.cons_append, List.nil_append, stripSign_nosign _ hsign, h1, h2,
      Bool.false_or]

lemma scanLines_nl (l : List Char) :
    scanLines ('\n' :: l) = ([] :: (scanLines l).1, (scanLines l).2) := by
  rcases h : scanLines l with ⟨ls, b⟩
  rw [scanLines.eq_def]
  simp [h]

lemma scanLines_cons_nil {c : Char} (hc : ¬c = '\n') {l b : List Char}
    (h : scanLines l = ([], b)) : scanLines (c :: l) = ([], c :: b) := by
  rw [scanLines.eq_def]
  simp [hc, h]

lemma scanLines_cons_cons {c : Char} (hc : ¬c = '\n') {l l₀ : List Char}
    {ls : List (List Char)} {b : List Char} (h : scanLines l = (l₀ :: ls, b)) :
    scanLines (c :: l) = ((c :: l₀) :: ls, b) := by
  rw [scanLines.eq_def]
  simp [hc, h]

lemma scanLines_append (s t : List Char) :
    scanLines (s ++ t) =
      ((scanLines s).1 ++ (scanLines ((scanLines s).2 ++ t)).1,
        (scanLines ((scanLines s).2 ++ t)).2) := by
  induction s with
  | nil => simp [scanLines]
  | cons c s' ih =>
    by_cases hc : c = '\n'
    · subst hc
      show scanLines ('\n' :: (s' ++ t)) = _
      rw [scanLines_nl, ih, scanLines_nl]
      simp
    · show scanLines (c :: (s' ++ t)) = _
      rcases h' : scanLines s' with ⟨ls, b⟩
      rcases hy : scanLines (b ++ t) with ⟨ys, yb⟩
      cases ls with
      | nil =>
        have hst : scanLines (s' ++ t) = (ys, yb) := by
          rw [ih, h', hy]
          simp
        rw [scanLines_cons_nil hc h']
        cases ys with
        | nil =>
          rw [scanLines_cons_nil hc hst]
          show _ = ([] ++ (scanLines (c :: (b ++ t))).1, (scanLines (c :: (b ++ t))).2)
          rw [scanLines_cons_nil hc hy]
          simp
        | cons y ys' =>
          rw [scanLines_cons_cons hc hst]
          show _ = ([] ++ (scanLines (c :: (b ++ t))).1, (scanLines (c :: (b ++ t))).2)
          rw [scanLines_cons_cons hc hy]
          simp
      | cons l₀ ls' =>
        have hst : scanLines (s' ++ t) = (l₀ :: (ls' ++ ys), yb) := by
          rw [ih, h', hy]
          simp
        rw [scanLines_cons_cons hc h', scanLines_cons_cons hc hst]
        show _ = (((c :: l₀) :: ls') ++ (scanLines (b ++ t)).1, (scanLines (b ++ t)).2)
        rw [hy]
        simp

lemma scanLines_residue (s : List Char) : '\n' ∉ (scanLines s).2 := by
  induction s with
  | nil => simp [scanLines]
  | cons c s' ih =>
    by_cases hc : c = '\n'
    · subst hc
      rw [scanLines_nl]
      exact ih
    · rcases h' : scanLines s' with ⟨ls, b⟩
      have ihb : '\n' ∉ b := by
        rw [h'] at ih
        exact ih
      cases ls with
      | nil =>
        rw [scanLines_cons_nil hc h']
        intro hm
        rcases List.mem_cons.mp hm with he | he
        · exact hc he.symm
        · exact ihb he
      | cons l₀ ls' =>
        rw [scanLines_cons_cons hc h']
        exact ihb

lemma scanLines_of_noNL {b : List Char} (h : '\n' ∉ b) : scanLines b = ([], b) := by
  induction b with
  | nil => rfl
  | cons c t ih =>
    have hc : ¬c = '\n' := fun e => h (e ▸ List.mem_cons_self c t)
    exact scanLines_cons_nil hc (ih fun hm => h (List.mem_cons_of_mem c hm))

lemma feedList_eq_feed (chunks : List (List Char)) :
    ∀ b : List Char, '\n' ∉ b → feedList b chunks = feed b chunks.flatten := by
  induction chunks with
  | nil =>
    intro b hb
    show ([], b) = feed b []
    rw [feed, List.append_nil, scanLines_of_noNL hb]
  | cons ch rest ih =>
    intro b hb
    rcases hf : scanLines (b ++ ch) with ⟨ls, b'⟩
    have hb' : '\n' ∉ b' := by
      have := scanLines_residue (b ++ ch)
      rw [hf] at this
      exact this
    have hrec := ih b' hb'
    have hR : feed b (List.flatten (ch :: rest)) =
        (ls ++ (scanLines (b' ++ List.flatten rest)).1,
          (scanLines (b' ++ List.flatten rest)).2) := by
      show scanLines (b ++ (ch ++ List.flatten rest)) = _
      rw [← List.append_assoc, scanLines_append, hf]
    rw [hR]
    simp only [feedList, feed]
    rw [hf]
    show (ls ++ (feedList b' rest).1, (feedList b' rest).2) = _
    rw [hrec]
    rfl

lemma flatten_map_singleton (s : List Char) :
    (s.map fun c => [c]).flatten = s := by
  induction s with
  | nil => rfl
  | cons c t ih => simp [ih]

/-- C5: feeding the reassembler one byte at a time yields exactly the same
candidate runs, in the same order (and the same final pending fragment), as
feeding the whole stream in a single call. -/
theorem reassembly_chunk_independent (s : List Char) :
    feedList [] (s.map fun c => [c]) = feed [] s := by
  rw [feedList_eq_feed _ [] (by simp), flatten_map_singleton]

lemma checksum_split (data : List Char) :
    ∃ t' e, checksum data = t' ++ [e] ∧ isPySpace e = false :=
  toHexMin2_split (xorFold data)

/-- C1: round-trip — for every reading whose sensor id is one of the
configured set and whose numeric fields are system-produced (timestamp
rounded to milliseconds, value rounded to centi-units), decoding the frame
produced by encoding yields Valid with timestamp, sensor id and value equal
to those of the reading (field-text equality; `float()` is a function of
the text, so text equality is value equality). -/
theorem decode_encode_round_trip (tsMs : Nat) (s : SensorId) (v : Int) :
    validate_packet (build_packet tsMs (sensorText s) v) =
      Except.ok ⟨renderMilli tsMs, sensorText s, renderCenti v⟩ := by
  have hsid : '|' ∉ sensorText s := by cases s <;> decide
  obtain ⟨t', e, htok, he⟩ :=
    checksum_split (mkBody (renderMilli tsMs) (sensorText s) (renderCenti v))
  show validate_packet
      (mkFrame (mkBody (renderMilli tsMs) (sensorText s) (renderCenti v))
        (checksum (mkBody (renderMilli tsMs) (sensorText s) (renderCenti v)))) = _
  rw [validate_fields _ _ _ _ (renderMilli_noPipe tsMs) hsid (renderCenti_noPipe v)
    (checksum_noPipe _) t' e htok he, if_pos rfl, isPyFloatText_renderMilli,
    isPyFloatText_renderCenti]
  rfl

/-- C3 counterexample: a frame whose token is the lowercase rendition of the
recomputed checksum ("0b" for "0B") is rejected with ChecksumMismatch, so
the comparison is not case-insensitive as claimed. -/
theorem lowercase_token_rejected :
    checksum ("SAT|1700000000.123|TEMP|10.28".toList) = "0B".toList ∧
      validate_packet ("SAT|1700000000.123|TEMP|10.28|0b\n".toList) =
        Except.error DiscardReason.ChecksumMismatch := by
  exact ⟨by decide, by decide⟩

/-- C3 (amended): the checksum comparison is exact string equality against
the uppercase recomputed checksum — any token that differs from it as a
string, in particular a lowercase hex token, fails with ChecksumMismatch. -/
theorem checksum_compare_case_sensitive (ts sid val tok : List Char)
    (hts : '|' ∉ ts) (hsid : '|' ∉ sid) (hval : '|' ∉ val) (htokp : '|' ∉ tok)
    (t' : List Char) (e : Char) (htok : tok = t' ++ [e]) (he : isPySpace e = false)
    (hne : tok ≠ checksum (mkBody ts sid val)) :
    validate_packet (mkFrame (mkBody ts sid val) tok) =
      Except.error DiscardReason.ChecksumMismatch := by
  rw [validate_fields ts sid val tok hts hsid hval htokp t' e htok he,
    if_neg fun h => hne h.symm]

theorem checksum_compare_case_sensitive_witness :
    validate_packet ("SAT|1700000000.123|TEMP|10.28|0b\n".toList) =
      Except.error DiscardReason.ChecksumMismatch := by
  have happ := checksum_compare_case_sensitive ("1700000000.123".toList)
    ("TEMP".toList) ("10.28".toList) ("0b".toList) (by decide) (by decide)
    (by decide) (by decide) ['0'] 'b' (by decide) (by decide) (by decide)
  have hframe : ("SAT|1700000000.123|TEMP|10.28|0b\n".toList) =
      mkFrame (mkBody ("1700000000.123".toList) ("TEMP".toList) ("10.28".toList))
        ("0b".toList) := by decide
  rw [hframe]
  exact happ

/-- C8 counterexample: on the run " SAT|1700000000.123|TEMP|22.47|03" the
code strips the leading space and accepts the frame, whereas under the
claim's reading (only one trailing record separator stripped, everything
else kept as field bytes) the header field would be " SAT" and decode would
fail with BadHeader. -/
theorem leading_space_stripped_counterexample :
    validate_packet (' ' :: "SAT|1700000000.123|TEMP|22.47|03".toList) =
        Except.ok ⟨"1700000000.123".toList, "TEMP".toList, "22.47".toList⟩ ∧
      validate_packet_specStrip (' ' :: "SAT|1700000000.123|TEMP|22.47|03".toList) =
        Except.error DiscardReason.BadHeader := by
  exact ⟨by decide, by decide⟩

/-- C8 (amended): decode's first step is Python `str.strip()` — it removes
all leading and trailing whitespace (spaces, tabs, carriage returns,
newlines, ...), not just one trailing record separator, so surrounding
whitespace never reaches the fields; the decode outcome is unchanged by any
whitespace padding. -/
theorem strip_all_whitespace (ws1 ws2 run : List Char)
    (h1 : ∀ c ∈ ws1, isPySpace c = true) (h2 : ∀ c ∈ ws2, isPySpace c = true) :
    validate_packet (ws1 ++ run ++ ws2) = validate_packet run := by
  unfold validate_packet
  rw [pyStrip_pad ws1 ws2 run h1 h2]

theorem strip_all_whitespace_witness :
    validate_packet
        ([' '] ++ "SAT|1700000000.123|TEMP|22.47|03".toList ++ ['\r']) =
      validate_packet ("SAT|1700000000.123|TEMP|22.47|03".toList) :=
  strip_all_whitespace [' '] ['\r'] _ (by decide) (by decide)

/-- C2: decode is total — for every input it returns either a Valid reading
or a classified discard reason; the numeric parse failure is caught and
mapped to a typed outcome, so the caller can always continue. -/
theorem validate_packet_total (packet : List Char) :
    (∃ r, validate_packet packet = Except.ok r) ∨
      ∃ e, validate_packet packet = Except.error e := by
  cases h : validate_packet packet with
  | ok r => exact Or.inl ⟨r, rfl⟩
  | error e => exact Or.inr ⟨e, rfl⟩

/-- C4: decoding the literal corrupt-fault frame yields a Malformed outcome
with reason FieldCountMismatch (3 fields instead of 5, rejected at the
first check). -/
theorem corrupt_frame_field_count :
    validate_packet corruptFrame = Except.error DiscardReason.FieldCountMismatch := by
  decide

/-- C9: `inject_fault` never touches the per-sensor state mapping — on both
the corrupt-frame branch and the spike branch the state after the call is
the state before it. -/
theorem inject_fault_state_unchanged (sensor_id : Option SensorId)
    (st : SensorId → Rat) (r : FaultRand) :
    (inject_fault sensor_id st r).2 = st := by
  unfold inject_fault
  split <;> rfl

/-- C10: numeric parsing accepts everything Python `float()` accepts — a
checksummed frame carrying the value text "nan" decodes to Valid (not
NumericParseError) and the resulting reading is handed to the datastore by
the receiver loop. -/
theorem nan_value_accepted_and_stored :
    validate_packet ("SAT|1700000000.123|TEMP|nan|4F".toList) =
        Except.ok ⟨"1700000000.123".toList, "TEMP".toList, "nan".toList⟩ ∧
      isPyFloatText ("nan".toList) = true ∧
      (handleChunk [] [] ("SAT|1700000000.123|TEMP|nan|4F\n".toList)).2 =
        [⟨"1700000000.123".toList, "TEMP".toList, "nan".toList⟩] := by
  exact ⟨by decide, by decide, by decide⟩

lemma takeWhile_append_nomatch {p : Char → Bool} :
    ∀ (a : List Char) (c : Char) (l : List Char), (∀ x ∈ a, p x = true) →
      p c = false → (a ++ c :: l).takeWhile p = a
  | [], c, l, _, hc => by simp [List.takeWhile_cons, hc]
  | x :: t, c, l, h, hc => by
    rw [List.cons_append, List.takeWhile_cons, h x (List.mem_cons_self x t),
      takeWhile_append_nomatch t c l (fun y hy => h y (List.mem_cons_of_mem x hy)) hc]
    simp

lemma fracLen_renderMilli (n : Nat) :
    1 ≤ fracLen (renderMilli n) ∧ fracLen (renderMilli n) ≤ 3 := by
  unfold fracLen renderMilli
  have hrev : (natDigits (n / 1000) ++ '.' :: frac3 (n % 1000)).reverse =
      (frac3 (n % 1000)).reverse ++ '.' :: (natDigits (n / 1000)).reverse := by
    simp
  rw [hrev, takeWhile_append_nomatch _ '.' _ ?hall (by decide), List.length_reverse]
  case hall =>
    intro x hx
    have hd := frac3_digits (n % 1000) x (List.mem_reverse.mp hx)
    simp [(digit_ne hd).2.1]
  constructor
  · have := frac3_ne_nil (n % 1000)
    have hpos := List.length_pos.mpr this
    omega
  · exact frac3_len (n % 1000)

lemma tsField_build (tsMs : Nat) (sid : List Char) (v : Int) :
    tsFieldOf (build_packet tsMs sid v) = some (renderMilli tsMs) := by
  obtain ⟨t', e, htok, he⟩ :=
    checksum_split (mkBody (renderMilli tsMs) sid (renderCenti v))
  have hshape : build_packet tsMs sid v =
      'S' :: ((['A', 'T', '|'] ++ renderMilli tsMs ++ '|' :: sid ++
        '|' :: renderCenti v) ++ '|' :: t') ++ [e, '\n'] := by
    show mkFrame (mkBody (renderMilli tsMs) sid (renderCenti v))
        (checksum (mkBody (renderMilli tsMs) sid (renderCenti v))) = _
    rw [htok]
    simp [mkFrame, mkBody]
  unfold tsFieldOf
  rw [hshape, pyStrip_sandwich _ _ _ (by decide) he]
  have harr : 'S' :: ((['A', 'T', '|'] ++ renderMilli tsMs ++ '|' :: sid ++
        '|' :: renderCenti v) ++ '|' :: t') ++ [e] =
      ['S', 'A', 'T'] ++ '|' :: (renderMilli tsMs ++
        '|' :: (sid ++ '|' :: (renderCenti v ++ '|' :: (t' ++ [e])))) := by
    simp
  rw [harr, sp_append_pipe _ _ (by decide),
    sp_append_pipe _ _ (renderMilli_noPipe tsMs)]
  simp

/-- C7 (amended): the timestamp field of every encoded frame is decimal text
with at least one and at most three fractional digits — Python's float repr
trims trailing zeros, so it is not always exactly three. -/
theorem timestamp_frac_digits (tsMs : Nat) (sid : List Char) (v : Int) :
    tsFieldOf (build_packet tsMs sid v) = some (renderMilli tsMs) ∧
      1 ≤ fracLen (renderMilli tsMs) ∧ fracLen (renderMilli tsMs) ≤ 3 :=
  ⟨tsField_build tsMs sid v, fracLen_renderMilli tsMs⟩

/-- C7 counterexample: encoding at a whole-second timestamp (1700000000.0 s,
i.e. 1700000000000 ms) yields the timestamp field "1700000000.0", which has
one fractional digit, not exactly three as claimed. -/
theorem timestamp_frac_digits_counterexample :
    tsFieldOf (build_packet 1700000000000 ("TEMP".toList) 2247) =
        some ("1700000000.0".toList) ∧
      fracLen ("1700000000.0".toList) ≠ 3 := by
  exact ⟨by decide, by decide⟩

lemma noPipe_append {a b : List Char} (ha : '|' ∉ a) (hb : '|' ∉ b) :
    '|' ∉ a ++ b := by
  intro h
  rcases List.mem_append.mp h with h | h
  · exact ha h
  · exact hb h

lemma noPipe_cons {c : Char} {l : List Char} (hc : ¬c = '|') (hl : '|' ∉ l) :
    '|' ∉ c :: l := by
  intro h
  rcases List.mem_cons.mp h with h | h
  · exact hc h.symm
  · exact hl h

lemma noPipe_parts {ts pre post : List Char} {c : Char}
    (h : ts = pre ++ c :: post) (hts : '|' ∉ ts) :
    '|' ∉ pre ∧ ¬c = '|' ∧ '|' ∉ post := by
  subst h
  refine ⟨fun hm => hts ?_, fun hc => hts ?_, fun hm => hts ?_⟩
  · exact List.mem_append_left _ hm
  · exact List.mem_append_right _ (hc ▸ List.mem_cons_self c post)
  · exact List.mem_append_right _ (List.mem_cons_of_mem c hm)

lemma append_surgery {α : Type} :
    ∀ (a b pre post : List α) (c : α), a ++ b = pre ++ c :: post →
      (∃ post₁, a = pre ++ c :: post₁ ∧ post = post₁ ++ b) ∨
      (∃ pre₁, pre = a ++ pre₁ ∧ b = pre₁ ++ c :: post)
  | [], b, pre, post, c, h => Or.inr ⟨pre, rfl, by simpa using h⟩
  | x :: a', b, [], post, c, h => by
    have h' : x = c ∧ a' ++ b = post := by simpa using h
    exact Or.inl ⟨a', by simp [h'.1], h'.2.symm⟩
  | x :: a', b, y :: pre', post, c, h => by
    have h' : x = y ∧ a' ++ b = pre' ++ c :: post := by simpa using h
    rcases append_surgery a' b pre' post c h'.2 with ⟨post₁, ha, hp⟩ | ⟨pre₁, hp, hb⟩
    · exact Or.inl ⟨post₁, by simp [h'.1, ha], hp⟩
    · exact Or.inr ⟨pre₁, by simp [h'.1, hp], hb⟩

lemma xor_self_pow_ne {x : Nat} {b : Nat} : x ^^^ 2 ^ b ≠ x := by
  intro h
  have h2 : (2 : Nat) ^ b = 0 := by
    calc (2 : Nat) ^ b = x ^^^ (x ^^^ 2 ^ b) := by
          rw [← Nat.xor_assoc, Nat.xor_self, Nat.zero_xor]
      _ = x ^^^ x := by rw [h]
      _ = 0 := Nat.xor_self x
  exact absurd h2 (Nat.pos_iff_ne_zero.mp (Nat.pos_pow_of_pos b (by decide)))

lemma checksum_flip_ne {pre post : List Char} {c c' : Char} {b : Nat}
    (hascii : ∀ x ∈ pre ++ c :: post, x.toNat < 128)
    (hb : b < 8) (hc' : c'.toNat = c.toNat ^^^ 2 ^ b) :
    checksum (pre ++ c' :: post) ≠ checksum (pre ++ c :: post) := by
  intro h
  have h2b : (2 : Nat) ^ b < 256 := by
    calc (2 : Nat) ^ b ≤ 2 ^ 7 := Nat.pow_le_pow_right (by decide) (by omega)
      _ < 256 := by decide
  have hx : xorFold (pre ++ c :: post) < 128 := by
    have := xorFold_lt_two_pow (k := 7) (l := pre ++ c :: post)
      (by simpa using hascii)
    simpa using this
  have hx256 : xorFold (pre ++ c :: post) < 256 := by omega
  have hcle : c.toNat < 128 := hascii c (by simp)
  have hc'lt : c'.toNat < 256 := by
    rw [hc']
    have := Nat.xor_lt_two_pow (n := 8) (x := c.toNat) (y := 2 ^ b)
      (by simpa using by omega) (by simpa using h2b)
    simpa using this
  have hx' : xorFold (pre ++ c' :: post) < 256 := by
    have := xorFold_lt_two_pow (k := 8) (l := pre ++ c' :: post) ?hmem
    · simpa using this
    case hmem =>
      intro x hx
      rcases List.mem_append.mp hx with hm | hm
      · have := hascii x (List.mem_append_left _ hm)
        simp only [Nat.pow_succ]
        omega
      · rcases List.mem_cons.mp hm with rfl | hm
        · simpa using hc'lt
        · have := hascii x (List.mem_append_right _ (List.mem_cons_of_mem c hm))
          simp only [Nat.pow_succ]
          omega
  have hrel : xorFold (pre ++ c' :: post) = xorFold (pre ++ c :: post) ^^^ 2 ^ b := by
    have hxlc : ∀ a b c : Nat, a ^^^ (b ^^^ c) = b ^^^ (a ^^^ c) := fun a b c => by
      rw [← Nat.xor_assoc, Nat.xor_comm a b, Nat.xor_assoc]
    rw [xorFold_append, xorFold_append, xorFold_cons, xorFold_cons, hc']
    simp [Nat.xor_assoc, Nat.xor_comm, hxlc]
  have heq := toHexMin2_inj hx' hx256 h
  rw [hrel] at heq
  exact xor_self_pow_ne heq

lemma header_flip_facts {c c' : Char} {b : Nat} (hb : b < 8)
    (hc' : c'.toNat = c.toNat ^^^ 2 ^ b)
    (hc : c = 'S' ∨ c = 'A' ∨ c = 'T') :
    ¬c' = '|' ∧ isPySpace c' = false := by
  have hbase : c'.toNat ≠ 124 ∧ isPySpace c' = false := by
    rcases hc with rfl | rfl | rfl <;>
      exact ⟨by rw [hc']; interval_cases b <;> decide,
        by simp only [isPySpace]; rw [hc']; interval_cases b <;> decide⟩
  refine ⟨fun he => hbase.1 ?_, hbase.2⟩
  rw [he]
  decide

lemma flip_field_eval (ts sid val tok : List Char)
    (hts : '|' ∉ ts) (hsid : '|' ∉ sid) (hval : '|' ∉ val)
    (htokp : '|' ∉ tok) (t' : List Char) (e : Char) (htok : tok = t' ++ [e])
    (he : isPySpace e = false)
    (hne : checksum (mkBody ts sid val) ≠ tok) :
    validate_packet (mkFrame (mkBody ts sid val) tok) =
      Except.error DiscardReason.ChecksumMismatch := by
  rw [validate_fields ts sid val tok hts hsid hval htokp t' e htok he, if_neg hne]

lemma badheader_eval (f0 ts sid val : List Char) (t' : List Char) (e : Char)
    (c₀ : Char) (B0 : List Char) (hf0 : f0 = c₀ :: B0) (h₀ : isPySpace c₀ = false)
    (hnp0 : '|' ∉ f0) (hts : '|' ∉ ts) (hsid : '|' ∉ sid) (hval : '|' ∉ val)
    (htokp : '|' ∉ t' ++ [e]) (he : isPySpace e = false)
    (hne : ¬f0 = ['S', 'A', 'T']) :
    validate_packet (mkFrame (f0 ++ '|' :: (ts ++ '|' :: (sid ++ '|' :: val)))
        (t' ++ [e])) =
      Except.error DiscardReason.BadHeader := by
  subst hf0
  have hb1 : (c₀ :: B0) ++ '|' :: (ts ++ '|' :: (sid ++ '|' :: val)) =
      c₀ :: (B0 ++ '|' :: (ts ++ '|' :: (sid ++ '|' :: val))) := by simp
  rw [hb1, validate_frameEq c₀ _ t' e h₀ he]
  have harr : (c₀ :: (B0 ++ '|' :: (ts ++ '|' :: (sid ++ '|' :: val)))) ++
        '|' :: (t' ++ [e]) =
      (c₀ :: B0) ++ '|' :: (ts ++ '|' :: (sid ++ '|' :: (val ++ '|' :: (t' ++ [e])))) := by
    simp
  rw [harr, sp_append_pipe _ _ hnp0, sp_append_pipe _ _ hts, sp_append_pipe _ _ hsid,
    sp_append_pipe _ _ hval, sp_noPipe _ htokp, decodeParts_five, if_neg hne]

lemma fourfields_eval (f0 f1 f2 : List Char) (t' : List Char) (e : Char)
    (c₀ : Char) (B0 : List Char) (hf0 : f0 = c₀ :: B0) (h₀ : isPySpace c₀ = false)
    (hnp0 : '|' ∉ f0) (h1 : '|' ∉ f1) (h2 : '|' ∉ f2)
    (htokp : '|' ∉ t' ++ [e]) (he : isPySpace e = false) :
    validate_packet (mkFrame (f0 ++ '|' :: (f1 ++ '|' :: f2)) (t' ++ [e])) =
      Except.error DiscardReason.FieldCountMismatch := by
  subst hf0
  have hb1 : (c₀ :: B0) ++ '|' :: (f1 ++ '|' :: f2) =
      c₀ :: (B0 ++ '|' :: (f1 ++ '|' :: f2)) := by simp
  rw [hb1, validate_frameEq c₀ _ t' e h₀ he]
  have harr : (c₀ :: (B0 ++ '|' :: (f1 ++ '|' :: f2))) ++ '|' :: (t' ++ [e]) =
      (c₀ :: B0) ++ '|' :: (f1 ++ '|' :: (f2 ++ '|' :: (t' ++ [e]))) := by
    simp
  rw [harr, sp_append_pipe _ _ hnp0, sp_append_pipe _ _ h1, sp_append_pipe _ _ h2,
    sp_noPipe _ htokp, decodeParts_four]

lemma sixfields_eval (f0 f1 f2 f3 f4 : List Char) (t' : List Char) (e : Char)
    (c₀ : Char) (B0 : List Char) (hf0 : f0 = c₀ :: B0) (h₀ : isPySpace c₀ = false)
    (hnp0 : '|' ∉ f0) (h1 : '|' ∉ f1) (h2 : '|' ∉ f2) (h3 : '|' ∉ f3) (h4 : '|' ∉ f4)
    (htokp : '|' ∉ t' ++ [e]) (he : isPySpace e = false) :
    validate_packet (mkFrame
        (f0 ++ '|' :: (f1 ++ '|' :: (f2 ++ '|' :: (f3 ++ '|' :: f4)))) (t' ++ [e])) =
      Except.error DiscardReason.FieldCountMismatch := by
  subst hf0
  have hb1 : (c₀ :: B0) ++ '|' :: (f1 ++ '|' :: (f2 ++ '|' :: (f3 ++ '|' :: f4))) =
      c₀ :: (B0 ++ '|' :: (f1 ++ '|' :: (f2 ++ '|' :: (f3 ++ '|' :: f4)))) := by simp
  rw [hb1, validate_frameEq c₀ _ t' e h₀ he]
  have harr : (c₀ :: (B0 ++ '|' :: (f1 ++ '|' :: (f2 ++ '|' :: (f3 ++ '|' :: f4))))) ++
        '|' :: (t' ++ [e]) =
      (c₀ :: B0) ++ '|' ::
        (f1 ++ '|' :: (f2 ++ '|' :: (f3 ++ '|' :: (f4 ++ '|' :: (t' ++ [e]))))) := by
    simp
  rw [harr, sp_append_pipe _ _ hnp0, sp_append_pipe _ _ h1, sp_append_pipe _ _ h2,
    sp_append_pipe _ _ h3, sp_append_pipe _ _ h4, sp_noPipe _ htokp, decodeParts_six]

/-- C6 (amended): flipping a single bit of one body character of a valid
frame always makes decode reject the frame — and the reason is
ChecksumMismatch whenever the flip lands past the header and delimiter
structure is preserved (neither the original nor the flipped character is
the field delimiter); flips that hit the header or change the delimiter
count are rejected earlier as BadHeader or FieldCountMismatch, never
accepted. -/
theorem single_bit_flip_detected (ts sid val pre post : List Char) (c c' : Char)
    (b : Nat)
    (hts : '|' ∉ ts) (hsid : '|' ∉ sid) (hval : '|' ∉ val)
    (hascii : ∀ x ∈ mkBody ts sid val, x.toNat < 128)
    (hsplit : mkBody ts sid val = pre ++ c :: post)
    (hb : b < 8) (hc' : c'.toNat = c.toNat ^^^ 2 ^ b) :
    (∃ er, validate_packet (mkFrame (pre ++ c' :: post)
        (checksum (mkBody ts sid val))) = Except.error er) ∧
      (4 ≤ pre.length → c ≠ '|' → ¬c' = '|' →
        validate_packet (mkFrame (pre ++ c' :: post)
            (checksum (mkBody ts sid val))) =
          Except.error DiscardReason.ChecksumMismatch) := by
  have hcc' : ¬c' = c := by
    intro h
    subst h
    exact xor_self_pow_ne hc'.symm
  obtain ⟨t', e, htok, he⟩ := checksum_split (mkBody ts sid val)
  have htokp : '|' ∉ t' ++ [e] := by
    rw [← htok]
    exact checksum_noPipe _
  have hflipne : checksum (pre ++ c' :: post) ≠ checksum (pre ++ c :: post) :=
    checksum_flip_ne (hsplit ▸ hascii) hb hc'
  have hB : (['S', 'A', 'T', '|'] : List Char) ++ (ts ++ '|' :: (sid ++ '|' :: val)) =
      pre ++ c :: post := by
    rw [← hsplit]
    simp [mkBody]
  rcases append_surgery _ _ _ _ _ hB with ⟨post₁, hA, hpost⟩ | ⟨pre₁, hpre, hR⟩
  · -- the flip lands in the leading "SAT|"
    rcases pre with _ | ⟨p1, _ | ⟨p2, _ | ⟨p3, _ | ⟨p4, pre'⟩⟩⟩⟩
    · -- position 0: the 'S'
      have h0 : 'S' = c ∧ (['A', 'T', '|'] : List Char) = post₁ := by simpa using hA
      obtain ⟨h01, h02⟩ := h0
      subst h01
      subst h02
      subst hpost
      have hcf := header_flip_facts hb hc' (Or.inl rfl)
      have hgoal : validate_packet (mkFrame (([] : List Char) ++ c' ::
          (['A', 'T', '|'] ++ (ts ++ '|' :: (sid ++ '|' :: val))))
          (checksum (mkBody ts sid val))) = Except.error DiscardReason.BadHeader := by
        rw [htok]
        have hshape : ([] : List Char) ++ c' ::
            (['A', 'T', '|'] ++ (ts ++ '|' :: (sid ++ '|' :: val))) =
            [c', 'A', 'T'] ++ '|' :: (ts ++ '|' :: (sid ++ '|' :: val)) := by simp
        rw [hshape]
        refine badheader_eval _ ts sid val t' e c' ['A', 'T'] rfl hcf.2 ?_ hts hsid hval
          htokp he ?_
        · intro hm
          rcases List.mem_cons.mp hm with h | hm
          · exact hcf.1 h.symm
          · exact absurd hm (by decide)
        · intro hh
          simp only [List.cons.injEq, and_true] at hh
          exact hcc' hh
      exact ⟨⟨_, hgoal⟩, fun h4 _ _ => absurd h4 (by decide)⟩
    · -- position 1: the 'A'
      have h0 : 'S' = p1 ∧ 'A' = c ∧ (['T', '|'] : List Char) = post₁ := by simpa using hA
      obtain ⟨h01, h02, h03⟩ := h0
      subst h01
      subst h02
      subst h03
      subst hpost
      have hcf := header_flip_facts hb hc' (Or.inr (Or.inl rfl))
      have hgoal : validate_packet (mkFrame ((['S'] : List Char) ++ c' ::
          (['T', '|'] ++ (ts ++ '|' :: (sid ++ '|' :: val))))
          (checksum (mkBody ts sid val))) = Except.error DiscardReason.BadHeader := by
        rw [htok]
        have hshape : (['S'] : List Char) ++ c' ::
            (['T', '|'] ++ (ts ++ '|' :: (sid ++ '|' :: val))) =
            ['S', c', 'T'] ++ '|' :: (ts ++ '|' :: (sid ++ '|' :: val)) := by simp
        rw [hshape]
        refine badheader_eval _ ts sid val t' e 'S' [c', 'T'] rfl (by decide) ?_ hts hsid
          hval htokp he ?_
        · intro hm
          rcases List.mem_cons.mp hm with h | hm
          · exact absurd h (by decide)
          rcases List.mem_cons.mp hm with h | hm
          · exact hcf.1 h.symm
          · exact absurd hm (by decide)
        · intro hh
          simp only [List.cons.injEq, and_true, true_and] at hh
          exact hcc' hh
      exact ⟨⟨_, hgoal⟩, fun h4 _ _ => absurd h4 (by decide)⟩
    · -- position 2: the 'T'
      have h0 : 'S' = p1 ∧ 'A' = p2 ∧ 'T' = c ∧ (['|'] : List Char) = post₁ := by
        simpa using hA
      obtain ⟨h01, h02, h03, h04⟩ := h0
      subst h01
      subst h02
      subst h03
      subst h04
      subst hpost
      have hcf := header_flip_facts hb hc' (Or.inr (Or.inr rfl))
      have hgoal : validate_packet (mkFrame ((['S', 'A'] : List Char) ++ c' ::
          (['|'] ++ (ts ++ '|' :: (sid ++ '|' :: val))))
          (checksum (mkBody ts sid val))) = Except.error DiscardReason.BadHeader := by
        rw [htok]
        have hshape : (['S', 'A'] : List Char) ++ c' ::
            (['|'] ++ (ts ++ '|' :: (sid ++ '|' :: val))) =
            ['S', 'A', c'] ++ '|' :: (ts ++ '|' :: (sid ++ '|' :: val)) := by simp
        rw [hshape]
        refine badheader_eval _ ts sid val t' e 'S' ['A', c'] rfl (by decide) ?_ hts hsid
          hval htokp he ?_
        · intro hm
          rcases List.mem_cons.mp hm with h | hm
          · exact absurd h (by decide)
          rcases List.mem_cons.mp hm with h | hm
          · exact absurd h (by decide)
          rcases List.mem_cons.mp hm with h | hm
          · exact hcf.1 h.symm
          · exact absurd hm (by decide)
        · intro hh
          simp only [List.cons.injEq, and_true, true_and] at hh
          exact hcc' hh
      exact ⟨⟨_, hgoal⟩, fun h4 _ _ => absurd h4 (by decide)⟩
    · -- position 3: the first delimiter
      have h0 : 'S' = p1 ∧ 'A' = p2 ∧ 'T' = p3 ∧ '|' = c ∧ ([] : List Char) = post₁ := by
        simpa using hA
      obtain ⟨h01, h02, h03, h04, h05⟩ := h0
      subst h01
      subst h02
      subst h03
      subst h04
      subst h05
      subst hpost
      have hcp : ¬c' = '|' := hcc'
      have hgoal : validate_packet (mkFrame ((['S', 'A', 'T'] : List Char) ++ c' ::
          ([] ++ (ts ++ '|' :: (sid ++ '|' :: val))))
          (checksum (mkBody ts sid val))) =
          Except.error DiscardReason.FieldCountMismatch := by
        rw [htok]
        have hshape : (['S', 'A', 'T'] : List Char) ++ c' ::
            ([] ++ (ts ++ '|' :: (sid ++ '|' :: val))) =
            (['S', 'A', 'T', c'] ++ ts) ++ '|' :: (sid ++ '|' :: val) := by simp
        rw [hshape]
        refine fourfields_eval _ sid val t' e 'S' (['A', 'T', c'] ++ ts) (by simp) (by decide)
          ?_ hsid hval htokp he
        refine noPipe_append ?_ hts
        intro hm
        rcases List.mem_cons.mp hm with h | hm
        · exact absurd h (by decide)
        rcases List.mem_cons.mp hm with h | hm
        · exact absurd h (by decide)
        rcases List.mem_cons.mp hm with h | hm
        · exact absurd h (by decide)
        rcases List.mem_cons.mp hm with h | hm
        · exact hcp h.symm
        · exact absurd hm (List.not_mem_nil _)
      exact ⟨⟨_, hgoal⟩, fun _ hcne _ => absurd rfl hcne⟩
    · -- pre longer than the 4-character prefix: impossible
      exfalso
      have hlen := congrArg List.length hA
      simp only [List.length_cons, List.length_append, List.length_nil] at hlen
      omega
  · -- the flip lands in ts | sid | val (or one of the two inner delimiters)
    rcases append_surgery ts ('|' :: (sid ++ '|' :: val)) pre₁ post c hR with
      ⟨post₂, hts2, hpost2⟩ | ⟨pre₃, hpre3, hR2⟩
    · -- flip inside the timestamp field
      obtain ⟨hnp1, hcne, hnp2⟩ := noPipe_parts hts2 hts
      by_cases hcp : c' = '|'
      · subst hcp
        have hgoal : validate_packet (mkFrame (pre ++ '|' :: post)
            (checksum (mkBody ts sid val))) =
            Except.error DiscardReason.FieldCountMismatch := by
          rw [htok, hpre, hpost2]
          have hshape : (['S', 'A', 'T', '|'] ++ pre₁) ++ '|' ::
              (post₂ ++ '|' :: (sid ++ '|' :: val)) =
              ['S', 'A', 'T'] ++ '|' ::
                (pre₁ ++ '|' :: (post₂ ++ '|' :: (sid ++ '|' :: val))) := by simp
          rw [hshape]
          exact sixfields_eval _ pre₁ post₂ sid val t' e 'S' ['A', 'T'] rfl (by decide)
            (by decide) hnp1 hnp2 hsid hval htokp he
        exact ⟨⟨_, hgoal⟩, fun _ _ hcp' => absurd rfl hcp'⟩
      · have hts' : '|' ∉ pre₁ ++ c' :: post₂ := noPipe_append hnp1 (noPipe_cons hcp hnp2)
        have hbody' : pre ++ c' :: post = mkBody (pre₁ ++ c' :: post₂) sid val := by
          rw [hpre, hpost2]
          simp [mkBody]
        have hnecs : checksum (mkBody (pre₁ ++ c' :: post₂) sid val) ≠
            checksum (mkBody ts sid val) := by
          rw [← hbody', hsplit]
          exact hflipne
        have hgoal : validate_packet (mkFrame (pre ++ c' :: post)
            (checksum (mkBody ts sid val))) =
            Except.error DiscardReason.ChecksumMismatch := by
          rw [hbody']
          exact flip_field_eval _ _ _ _ hts' hsid hval (checksum_noPipe _) t' e htok he
            hnecs
        exact ⟨⟨_, hgoal⟩, fun _ _ _ => hgoal⟩
    · rcases pre₃ with _ | ⟨y, pre₃'⟩
      · -- the delimiter between ts and sid
        have h0 : '|' = c ∧ sid ++ '|' :: val = post := by simpa using hR2
        obtain ⟨h01, h02⟩ := h0
        subst h01
        subst h02
        have hpre1 : pre₁ = ts := by simpa using hpre3
        have hcp : ¬c' = '|' := hcc'
        have hgoal : validate_packet (mkFrame (pre ++ c' :: (sid ++ '|' :: val))
            (checksum (mkBody ts sid val))) =
            Except.error DiscardReason.FieldCountMismatch := by
          rw [htok, hpre, hpre1]
          have hshape : (['S', 'A', 'T', '|'] ++ ts) ++ c' :: (sid ++ '|' :: val) =
              ['S', 'A', 'T'] ++ '|' :: ((ts ++ c' :: sid) ++ '|' :: val) := by simp
          rw [hshape]
          exact fourfields_eval _ _ val t' e 'S' ['A', 'T'] rfl (by decide) (by decide)
            (noPipe_append hts (noPipe_cons hcp hsid)) hval htokp he
        exact ⟨⟨_, hgoal⟩, fun _ hcne _ => absurd rfl hcne⟩
      · have h0 : '|' = y ∧ sid ++ '|' :: val = pre₃' ++ c :: post := by simpa using hR2
        obtain ⟨h01, h02⟩ := h0
        subst h01
        rcases append_surgery sid ('|' :: val) pre₃' post c h02 with
          ⟨post₄, hsid2, hpost4⟩ | ⟨pre₅, hpre5, hR3⟩
        · -- flip inside the sensor-id field
          obtain ⟨hnp1, hcne, hnp2⟩ := noPipe_parts hsid2 hsid
          by_cases hcp : c' = '|'
          · subst hcp
            have hgoal : validate_packet (mkFrame (pre ++ '|' :: post)
                (checksum (mkBody ts sid val))) =
                Except.error DiscardReason.FieldCountMismatch := by
              rw [htok, hpre, hpre3, hpost4]
              have hshape : (['S', 'A', 'T', '|'] ++ (ts ++ '|' :: pre₃')) ++ '|' ::
                  (post₄ ++ '|' :: val) =
                  ['S', 'A', 'T'] ++ '|' ::
                    (ts ++ '|' :: (pre₃' ++ '|' :: (post₄ ++ '|' :: val))) := by simp
              rw [hshape]
              exact sixfields_eval _ ts pre₃' post₄ val t' e 'S' ['A', 'T'] rfl (by decide)
                (by decide) hts hnp1 hnp2 hval htokp he
            exact ⟨⟨_, hgoal⟩, fun _ _ hcp' => absurd rfl hcp'⟩
          · have hsid' : '|' ∉ pre₃' ++ c' :: post₄ :=
              noPipe_append hnp1 (noPipe_cons hcp hnp2)
            have hbody' : pre ++ c' :: post = mkBody ts (pre₃' ++ c' :: post₄) val := by
              rw [hpre, hpre3, hpost4]
              simp [mkBody]
            have hnecs : checksum (mkBody ts (pre₃' ++ c' :: post₄) val) ≠
                checksum (mkBody ts sid val) := by
              rw [← hbody', hsplit]
              exact hflipne
            have hgoal : validate_packet (mkFrame (pre ++ c' :: post)
                (checksum (mkBody ts sid val))) =
                Except.error DiscardReason.ChecksumMismatch := by
              rw [hbody']
              exact flip_field_eval _ _ _ _ hts hsid' hval (checksum_noPipe _) t' e htok
                he hnecs
            exact ⟨⟨_, hgoal⟩, fun _ _ _ => hgoal⟩
        · rcases pre₅ with _ | ⟨z, pre₅'⟩
          · -- the delimiter between sid and val
            have h1 : '|' = c ∧ val = post := by simpa using hR3
            obtain ⟨h11, h12⟩ := h1
            subst h11
            subst h12
            have hpre31 : pre₃' = sid := by simpa using hpre5
            have hcp : ¬c' = '|' := hcc'
            have hgoal : validate_packet (mkFrame (pre ++ c' :: val)
                (checksum (mkBody ts sid val))) =
                Except.error DiscardReason.FieldCountMismatch := by
              rw [htok, hpre, hpre3, hpre31]
              have hshape : (['S', 'A', 'T', '|'] ++ (ts ++ '|' :: sid)) ++ c' :: val =
                  ['S', 'A', 'T'] ++ '|' :: (ts ++ '|' :: (sid ++ c' :: val)) := by simp
              rw [hshape]
              exact fourfields_eval _ ts _ t' e 'S' ['A', 'T'] rfl (by decide) (by decide)
                hts (noPipe_append hsid (noPipe_cons hcp hval)) htokp he
            exact ⟨⟨_, hgoal⟩, fun _ hcne _ => absurd rfl hcne⟩
          · have h1 : '|' = z ∧ val = pre₅' ++ c :: post := by simpa using hR3
            obtain ⟨h11, h12⟩ := h1
            subst h11
            -- flip inside the value field
            obtain ⟨hnp1, hcne, hnp2⟩ := noPipe_parts h12 hval
            by_cases hcp : c' = '|'
            · subst hcp
              have hgoal : validate_packet (mkFrame (pre ++ '|' :: post)
                  (checksum (mkBody ts sid val))) =
                  Except.error DiscardReason.FieldCountMismatch := by
                rw [htok, hpre, hpre3, hpre5]
                have hshape : (['S', 'A', 'T', '|'] ++
                    (ts ++ '|' :: (sid ++ '|' :: pre₅'))) ++ '|' :: post =
                    ['S', 'A', 'T'] ++ '|' ::
                      (ts ++ '|' :: (sid ++ '|' :: (pre₅' ++ '|' :: post))) := by simp
                rw [hshape]
                exact sixfields_eval _ ts sid pre₅' post t' e 'S' ['A', 'T'] rfl
                  (by decide) (by decide) hts hsid hnp1 hnp2 htokp he
              exact ⟨⟨_, hgoal⟩, fun _ _ hcp' => absurd rfl hcp'⟩
            · have hval' : '|' ∉ pre₅' ++ c' :: post :=
                noPipe_append hnp1 (noPipe_cons hcp hnp2)
              have hbody' : pre ++ c' :: post = mkBody ts sid (pre₅' ++ c' :: post) := by
                rw [hpre, hpre3, hpre5]
                simp [mkBody]
              have hnecs : checksum (mkBody ts sid (pre₅' ++ c' :: post)) ≠
                  checksum (mkBody ts sid val) := by
                rw [← hbody', hsplit]
                exact hflipne
              have hgoal : validate_packet (mkFrame (pre ++ c' :: post)
                  (checksum (mkBody ts sid val))) =
                  Except.error DiscardReason.ChecksumMismatch := by
                rw [hbody']
                exact flip_field_eval _ _ _ _ hts hsid hval' (checksum_noPipe _) t' e
                  htok he hnecs
              exact ⟨⟨_, hgoal⟩, fun _ _ _ => hgoal⟩

/-- C6 counterexample: flipping bit 0 of the header byte 'S' of a valid
frame (giving "RAT|...") is a single-bit body flip, yet decode returns
BadHeader, not ChecksumMismatch as the claim states. -/
theorem header_flip_not_checksum_mismatch :
    ('R').toNat = ('S').toNat ^^^ 2 ^ 0 ∧
      checksum ("SAT|1700000000.123|TEMP|22.47".toList) = "03".toList ∧
      validate_packet ("RAT|1700000000.123|TEMP|22.47|03\n".toList) =
        Except.error DiscardReason.BadHeader ∧
      DiscardReason.BadHeader ≠ DiscardReason.ChecksumMismatch := by
  exact ⟨by decide, by decide, by decide, by decide⟩

theorem single_bit_flip_detected_witness :
    validate_packet (mkFrame ("SAT|0700000000.123|TEMP|22.47".toList)
        (checksum ("SAT|1700000000.123|TEMP|22.47".toList))) =
      Except.error DiscardReason.ChecksumMismatch := by
  have happ := (single_bit_flip_detected ("1700000000.123".toList) ("TEMP".toList)
    ("22.47".toList) ("SAT|".toList) ("700000000.123|TEMP|22.47".toList) '1' '0' 0
    (by decide) (by decide) (by decide) (by decide) (by decide) (by decide)
    (by decide)).2 (by decide) (by decide) (by decide)
  have e1 : "SAT|".toList ++ '0' :: ("700000000.123|TEMP|22.47".toList) =
      "SAT|0700000000.123|TEMP|22.47".toList := by decide
  have e2 : mkBody ("1700000000.123".toList) ("TEMP".toList) ("22.47".toList) =
      "SAT|1700000000.123|TEMP|22.47".toList := by decide
  rw [e1, e2] at happ
  exact happ
